import Mathlib

/-!
# Verification of the GA4 analytics aggregation and comparison engine

A shallow embedding, in Lean 4, of the pure computational core of
`ga4_api.py`: the metric-value coercion of `run_ga4_report`, the URL-path
row filter and grouped aggregation of `get_page_performance`, the legacy
`aggregate_basic`, the event denylist filter of `get_event_data`, the
period comparison loop of `collect_all_data`, and the text serializer
`build_data_summary`.

Modelling conventions:
* Python numbers (`int` and `float`) are embedded as `ℚ`; where the
  int/float distinction is observable (the coercion in `run_ga4_report`,
  the values stored in the site-totals snapshots) a tagged `GAValue` is
  used instead.
* Python `dict`s are embedded as insertion-ordered association lists
  (`List (κ × α)`), matching the insertion-order iteration semantics of
  Python 3.7+ dicts: assignment to an existing key updates in place,
  assignment to a fresh key appends.
* `round(x, n)` is embedded as `roundTo n x` over `ℚ`, rounding half
  away from the floor; Python rounds ties of binary floats to even, a
  difference only at exact ties, which none of the statements below touch.
-/

namespace GA4

attribute [local semireducible] Rat.add Rat.mul Rat.inv Rat.sub Rat.ofScientific

/-! ## Association lists (Python dicts) -/

variable {κ : Type} {α : Type}

/-- `d.get(k)`: the value stored at the first (for a dict: the only)
occurrence of key `k`. -/
def alGet? [DecidableEq κ] : List (κ × α) → κ → Option α
  | [], _ => none
  | e :: rest, k => if e.1 = k then some e.2 else alGet? rest k

/-- `d[k] = v`: update in place if the key exists, else append. -/
def alSet [DecidableEq κ] : List (κ × α) → κ → α → List (κ × α)
  | [], k, v => [(k, v)]
  | e :: rest, k, v => if e.1 = k then (k, v) :: rest else e :: alSet rest k v

/-- `d[k] = d.get(k, 0) + v`: the tally-increment idiom used for all
breakdown dictionaries in the source. -/
def bump [DecidableEq κ] (al : List (κ × ℚ)) (k : κ) (v : ℚ) : List (κ × ℚ) :=
  alSet al k ((alGet? al k).getD 0 + v)

theorem alGet?_alSet_same [DecidableEq κ] (al : List (κ × α)) (k : κ) (v : α) :
    alGet? (alSet al k v) k = some v := by
  induction al with
  | nil => simp [alGet?, alSet]
  | cons e rest ih =>
    by_cases h : e.1 = k
    · simp [alGet?, alSet, h]
    · simp [alGet?, alSet, h, ih]

theorem alGet?_alSet_other [DecidableEq κ] (al : List (κ × α)) (k j : κ) (v : α)
    (hjk : j ≠ k) : alGet? (alSet al k v) j = alGet? al j := by
  have hkj : ¬ k = j := fun h => hjk h.symm
  induction al with
  | nil => simp [alGet?, alSet, hkj]
  | cons e rest ih =>
    by_cases h : e.1 = k
    · subst h
      simp [alGet?, alSet, hkj]
    · by_cases h2 : e.1 = j <;> simp [alGet?, alSet, h, h2, hjk, ih]

theorem alGet?_bump [DecidableEq κ] (al : List (κ × ℚ)) (k j : κ) (v : ℚ) :
    (alGet? (bump al k v) j).getD 0 =
      (alGet? al j).getD 0 + (if j = k then v else 0) := by
  by_cases h : j = k
  · subst h; simp [bump, alGet?_alSet_same]
  · simp [bump, alGet?_alSet_other al k j _ h, h]

theorem alSet_keys [DecidableEq κ] (al : List (κ × α)) (k : κ) (v : α) :
    (alSet al k v).map Prod.fst =
      if k ∈ al.map Prod.fst then al.map Prod.fst else al.map Prod.fst ++ [k] := by
  induction al with
  | nil => simp [alSet]
  | cons e rest ih =>
    by_cases h : e.1 = k
    · simp [alSet, h]
    · have : ¬ k = e.1 := fun hh => h hh.symm
      by_cases hm : k ∈ rest.map Prod.fst <;> simp [alSet, h, ih, hm, this]

theorem alSet_keys_nodup [DecidableEq κ] (al : List (κ × α)) (k : κ) (v : α)
    (h : (al.map Prod.fst).Nodup) : ((alSet al k v).map Prod.fst).Nodup := by
  rw [alSet_keys]
  by_cases hm : k ∈ al.map Prod.fst
  · simpa [hm] using h
  · simp only [hm, if_false]
    refine List.Nodup.append h (List.nodup_singleton k) ?_
    intro a ha hak
    have : a = k := by simpa using hak
    exact hm (this ▸ ha)

theorem alGet?_of_mem [DecidableEq κ] (al : List (κ × α)) (k : κ) (v : α)
    (hnd : (al.map Prod.fst).Nodup) (hm : (k, v) ∈ al) : alGet? al k = some v := by
  induction al with
  | nil => simp at hm
  | cons e rest ih =>
    rcases List.mem_cons.1 hm with hm1 | hm1
    · simp [alGet?, ← hm1]
    · have hk : k ∈ rest.map Prod.fst := List.mem_map.2 ⟨(k, v), hm1, rfl⟩
      have hne : e.1 ≠ k := by
        intro h
        exact (List.nodup_cons.1 hnd).1 (h ▸ hk)
      simp [alGet?, hne, ih (List.nodup_cons.1 hnd).2 hm1]

theorem mem_alSet [DecidableEq κ] (al : List (κ × α)) (k : κ) (v : α) (e : κ × α)
    (he : e ∈ alSet al k v) : e ∈ al ∨ e = (k, v) := by
  induction al with
  | nil => simp [alSet] at he; simp [he]
  | cons x rest ih =>
    by_cases h : x.1 = k
    · simp only [alSet, h, if_true, List.mem_cons] at he
      rcases he with he1 | he1
      · right
        rw [he1]
      · left; exact List.mem_cons_of_mem _ he1
    · simp only [alSet, h, if_false, List.mem_cons] at he
      rcases he with he1 | he1
      · left
        rw [he1]
        exact List.mem_cons_self x rest
      · rcases ih he1 with h2 | h2
        · left; exact List.mem_cons_of_mem _ h2
        · right; exact h2

/-! ## Stable descending sort

Models `sorted(l, key=f, reverse=True)` (and the equivalent
`sorted(l, key=lambda x: -f(x))`): descending by key, elements with equal
keys keeping their original relative order (Python's sort is stable). -/

/-- Insert `x` before the first element whose key is `≤` its own; later
elements with an equal key therefore stay behind it. -/
def insDesc (key : α → ℚ) (x : α) : List α → List α
  | [] => [x]
  | y :: ys => if key y ≤ key x then x :: y :: ys else y :: insDesc key x ys

/-- Stable descending insertion sort by a `ℚ`-valued key. -/
def sortDescBy (key : α → ℚ) (l : List α) : List α :=
  l.foldr (insDesc key) []

/-- `max(d, key=d.get)` on an insertion-ordered dict: the first entry with
a maximal value. -/
def maxEntry : List (κ × ℚ) → Option (κ × ℚ)
  | [] => none
  | e :: rest =>
    match maxEntry rest with
    | none => some e
    | some b => if b.2 > e.2 then some b else some e

/-- `min(d, key=d.get)`: the first entry with a minimal value. -/
def minEntry : List (κ × ℚ) → Option (κ × ℚ)
  | [] => none
  | e :: rest =>
    match minEntry rest with
    | none => some e
    | some b => if b.2 < e.2 then some b else some e

/-! ## Rounding -/

/-- `round(x, p)` over `ℚ`. -/
def roundTo (p : ℕ) (x : ℚ) : ℚ := (round (x * (10 : ℚ) ^ p) : ℤ) / (10 : ℚ) ^ p

theorem abs_roundTo_sub (p : ℕ) (x : ℚ) :
    |roundTo p x - x| ≤ 1 / (2 * (10 : ℚ) ^ p) := by
  have hpow : (0 : ℚ) < (10 : ℚ) ^ p := by positivity
  have h := abs_sub_round (x * (10 : ℚ) ^ p)
  have hrw : roundTo p x - x = -((x * (10 : ℚ) ^ p - (round (x * (10 : ℚ) ^ p) : ℤ)) / (10 : ℚ) ^ p) := by
    field_simp [roundTo]
    ring
  rw [hrw, abs_neg, abs_div, abs_of_pos hpow, div_le_div_iff₀ hpow (by positivity)]
  calc |x * (10 : ℚ) ^ p - (round (x * (10 : ℚ) ^ p) : ℤ)| * (2 * (10 : ℚ) ^ p)
      ≤ (1 / 2) * (2 * (10 : ℚ) ^ p) := by
        exact mul_le_mul_of_nonneg_right h (by positivity)
    _ = 1 * (10 : ℚ) ^ p := by ring

theorem roundTo_le (p : ℕ) (x : ℚ) : roundTo p x ≤ x + 1 / (2 * (10 : ℚ) ^ p) := by
  have h := (abs_le.1 (abs_roundTo_sub p x)).2
  linarith

theorem le_roundTo (p : ℕ) (x : ℚ) : x - 1 / (2 * (10 : ℚ) ^ p) ≤ roundTo p x := by
  have h := (abs_le.1 (abs_roundTo_sub p x)).1
  linarith

/-! ## Number-to-text rendering

Models the Python format specifications used by `build_data_summary`:
`{n:,}` (thousands separators), `{x:.1f}`, `{x:+.1f}`, `{x:.1%}`,
`{x:+.1%}`, `{x:+,}` and plain `str(x)`.  Values are `ℚ`; a rational with
denominator 1 renders as a Python `int` would.  For fixed-precision
formats Python rounds the underlying binary double half-to-even; the
model rounds the rational half-up, and `-0.0` renders unsigned — both
differences are invisible at every value these theorems evaluate. -/

/-- One decimal digit as a character. -/
def digitChar : ℕ → Char
  | 0 => '0' | 1 => '1' | 2 => '2' | 3 => '3' | 4 => '4'
  | 5 => '5' | 6 => '6' | 7 => '7' | 8 => '8' | 9 => '9'
  | _ => '?'

/-- Decimal digits of `n`, most significant first (fuelled recursion). -/
def natDigitsAux : ℕ → ℕ → List Char
  | 0, _ => []
  | fuel + 1, n => if n < 10 then [digitChar n] else natDigitsAux fuel (n / 10) ++ [digitChar (n % 10)]

/-- `str(n)` for a natural number. -/
def natStr (n : ℕ) : String := String.mk (natDigitsAux (n + 1) n)

/-- Insert a comma before every group of three digits, counted from the
right. -/
def insertCommas : List Char → List Char
  | [] => []
  | c :: rest =>
    c :: (if rest.length % 3 = 0 ∧ rest ≠ [] then ',' :: insertCommas rest else insertCommas rest)

/-- `f"{n:,}"` for a natural number. -/
def commaNat (n : ℕ) : String := String.mk (insertCommas (natDigitsAux (n + 1) n))

/-- `str(z)` for an integer. -/
def intPlainStr (z : ℤ) : String := (if z < 0 then "-" else "") ++ natStr z.natAbs

/-- `f"{z:,}"` for an integer. -/
def intCommaStr (z : ℤ) : String := (if z < 0 then "-" else "") ++ commaNat z.natAbs

/-- Decimal expansion of `rem / den` (`0 < den`), up to 17 digits.  Python
prints the shortest round-tripping decimal of the closest double; on
every value rendered below the expansion terminates and the two agree. -/
def fracDigitsAux : ℕ → ℕ → ℕ → List Char
  | 0, _, _ => []
  | fuel + 1, rem, den =>
    if rem = 0 then [] else digitChar (rem * 10 / den) :: fracDigitsAux fuel (rem * 10 % den) den

/-- Fractional digit string, `"0"` when the fraction is zero (so that a
whole-number float renders as `"3.0"`). -/
def fracStr (rem den : ℕ) : String :=
  if rem = 0 then "0" else String.mk (fracDigitsAux 17 rem den)

/-- Magnitude of `x` with thousands separators; a decimal point only when
`x` is not an integer. -/
def ratCommaAbs (x : ℚ) : String :=
  let a := x.num.natAbs
  let b := x.den
  if b = 1 then commaNat a else commaNat (a / b) ++ "." ++ fracStr (a % b) b

/-- Magnitude of `x` without separators (plain `str`). -/
def ratPlainAbs (x : ℚ) : String :=
  let a := x.num.natAbs
  let b := x.den
  if b = 1 then natStr a else natStr (a / b) ++ "." ++ fracStr (a % b) b

/-- `f"{x:,}"`. -/
def fmtCommaQ (x : ℚ) : String := (if x < 0 then "-" else "") ++ ratCommaAbs x

/-- `f"{x:+,}"`. -/
def fmtSignedCommaQ (x : ℚ) : String := (if x < 0 then "-" else "+") ++ ratCommaAbs x

/-- `str(x)`. -/
def fmtPlainQ (x : ℚ) : String := (if x < 0 then "-" else "") ++ ratPlainAbs x

/-- `⟨integer part⟩.⟨tenths⟩` of `m` tenths. -/
def fix1Abs (m : ℕ) : String := natStr (m / 10) ++ "." ++ natStr (m % 10)

/-- `f"{x:.1f}"`. -/
def fmtFix1 (x : ℚ) : String :=
  let n := round (x * 10)
  (if n < 0 then "-" else "") ++ fix1Abs n.natAbs

/-- `f"{x:+.1f}"`. -/
def fmtSignedFix1 (x : ℚ) : String :=
  let n := round (x * 10)
  (if n < 0 then "-" else "+") ++ fix1Abs n.natAbs

/-- `f"{x:.1%}"`. -/
def fmtPct1 (x : ℚ) : String := fmtFix1 (x * 100) ++ "%"

/-- `f"{x:+.1%}"`. -/
def fmtSignedPct1 (x : ℚ) : String := fmtSignedFix1 (x * 100) ++ "%"

/-- `", ".join(l)`. -/
def joinComma (l : List String) : String := String.intercalate ", " l

/-! ## Metric values and the coercion policy of `run_ga4_report`

A GA4 metric value arrives as a string; `run_ga4_report` tries
`int(val)`, then `float(val)`, then keeps the string.  The three
outcomes are kept apart by a tagged type, since `int` versus `float`
is observable downstream (`isinstance` checks, `{v:,}` rendering). -/

inductive GAValue : Type
  | vInt : ℤ → GAValue
  | vFloat : ℚ → GAValue
  | vStr : String → GAValue
deriving DecidableEq, Inhabited

/-- `isinstance(v, (int, float))`. -/
def GAValue.isNum : GAValue → Bool
  | .vInt _ => true
  | .vFloat _ => true
  | .vStr _ => false

/-- The rational magnitude of a numeric value (0 for a string; only ever
used under an `isNum` guard, as in the source). -/
def GAValue.toQ : GAValue → ℚ
  | .vInt n => (n : ℚ)
  | .vFloat q => q
  | .vStr _ => 0

/-- `f"{v:,}"` on a stored snapshot value: an int renders without a
decimal point, a float with one. -/
def fmtCommaVal : GAValue → String
  | .vInt n => intCommaStr n
  | .vFloat q => (if q < 0 then "-" else "") ++
      commaNat (q.num.natAbs / q.den) ++ "." ++ fracStr (q.num.natAbs % q.den) q.den
  | .vStr s => s

/-- Python `str.strip()` whitespace (the ASCII part, which is all the
metric strings can contain). -/
def isPyWs (c : Char) : Bool := c == ' ' || c == '\t' || c == '\n' || c == '\r'

/-- Strip leading and trailing whitespace from a character list. -/
def stripWs (l : List Char) : List Char :=
  ((l.dropWhile isPyWs).reverse.dropWhile isPyWs).reverse

/-- Split an optional leading sign: `(negative?, rest)`. -/
def signSplit : List Char → Bool × List Char
  | '-' :: rest => (true, rest)
  | '+' :: rest => (false, rest)
  | l => (false, l)

/-- Numeric value of a digit list, most significant first. -/
def digitsVal (l : List Char) : ℕ := l.foldl (fun a c => a * 10 + (c.toNat - 48)) 0

/-- Models Python `int(s)` on a metric-value string: optional surrounding
whitespace, optional sign, one or more ASCII digits; anything else raises
`ValueError` (`none`). -/
def pyInt? (s : String) : Option ℤ :=
  let l := stripWs s.toList
  let sd := signSplit l
  if sd.2 ≠ [] ∧ sd.2.all Char.isDigit then
    some ((if sd.1 then -1 else 1) * (digitsVal sd.2 : ℤ))
  else none

/-- Models Python `float(s)` on a metric-value string: optional
surrounding whitespace, optional sign, digits with an optional decimal
point (`"3"`, `"3."`, `".5"`, `"3.25"`); the exponent/`inf`/`nan` forms,
which GA4 metric strings never take, are out of the model. -/
def pyFloat? (s : String) : Option ℚ :=
  let l := stripWs s.toList
  let sd := signSplit l
  let ip := sd.2.takeWhile (fun c => !(c == '.'))
  let rest := sd.2.dropWhile (fun c => !(c == '.'))
  let sign : ℚ := if sd.1 then -1 else 1
  match rest with
  | [] =>
    if ip ≠ [] ∧ ip.all Char.isDigit then some (sign * (digitsVal ip : ℚ)) else none
  | '.' :: fp =>
    if (ip ≠ [] ∨ fp ≠ []) ∧ ip.all Char.isDigit ∧ fp.all Char.isDigit then
      some (sign * ((digitsVal ip : ℚ) + (digitsVal fp : ℚ) / (10 : ℚ) ^ fp.length))
    else none
  | _ => none

/-- The per-metric coercion of `run_ga4_report` (lines 189–197):
`int` parse first, on failure `float` parse, on failure the raw string. -/
def coerceMetricValue (s : String) : GAValue :=
  match pyInt? s with
  | some n => .vInt n
  | none =>
    match pyFloat? s with
    | some q => .vFloat q
    | none => .vStr s

/-! ## The period comparator of `collect_all_data` (lines 421–434)

Given the current and previous site-totals snapshots (flat dicts from
metric name to parsed value), build the `changes` dict. -/

/-- `snapshot.get(metric, 0)`. -/
def snapGet (snap : List (String × GAValue)) (m : String) : GAValue :=
  (alGet? snap m).getD (.vInt 0)

/-- One comparison entry: `{"current": ..., "previous": ..., "change_pct": ...}`. -/
structure Comparison where
  current : GAValue
  previous : GAValue
  change_pct : Option ℚ
deriving DecidableEq, Inhabited

/-- The `change_pct` rule: `round(((curr - prev) / prev) * 100, 1)` when
`prev > 0`, else `None`. -/
def changePct (curr prev : ℚ) : Option ℚ :=
  if prev > 0 then some (roundTo 1 ((curr - prev) / prev * 100)) else none

/-- The comparison loop: for each metric of the current snapshot, look up
both values (previous defaulting to 0), keep the metric only when both
are numeric. -/
def calculateChanges (cur prev : List (String × GAValue)) : List (String × Comparison) :=
  cur.filterMap (fun e =>
    let c := snapGet cur e.1
    let p := snapGet prev e.1
    if c.isNum && p.isNum then
      some (e.1, ⟨c, p, changePct c.toQ p.toQ⟩)
    else none)

/-! ## URL-path translation and the row filter of `get_page_performance`

`urlparse(u).path` for the HTTP-style URLs this API receives: everything
from the first `/` after the `scheme://authority` part, cut at the query
or fragment; a URL without a `://` separator is all path (as in
`urllib.parse`). -/

/-- The character list after the first `://`, if any. -/
def afterSchemeSep : List Char → Option (List Char)
  | [] => none
  | ':' :: '/' :: '/' :: rest => some rest
  | _ :: rest => afterSchemeSep rest

/-- Models `urlparse(u).path`. -/
def extractUrlPath (u : String) : String :=
  let cs := u.toList
  let core := match afterSchemeSep cs with
    | some rest => rest.dropWhile (fun c => !(c == '/'))
    | none => cs
  String.mk (core.takeWhile (fun c => !(c == '?') && !(c == '#')))

/-- `[urlparse(u).path or '/' for u in urls if u]`. -/
def urlPathsOf (urls : List String) : List String :=
  (urls.filter (fun u => u ≠ "")).map (fun u =>
    let p := extractUrlPath u
    if p = "" then "/" else p)

/-! ## Normalized page rows and the grouped aggregator
(`get_page_performance`, lines 202–284)

One row of the page-performance report: five dimensions and ten
metrics.  All metric values are embedded as `ℚ` (GA4 delivers the counts
as integer strings and the rates as decimal strings; the aggregation
arithmetic is identical). -/

structure PageRow where
  pagePath : String
  deviceCategory : String
  sessionSource : String
  sessionMedium : String
  sessionDefaultChannelGroup : String
  sessions : ℚ
  totalUsers : ℚ
  newUsers : ℚ
  bounceRate : ℚ
  averageSessionDuration : ℚ
  engagedSessions : ℚ
  userEngagementDuration : ℚ
  screenPageViewsPerSession : ℚ
  engagementRate : ℚ
  eventCount : ℚ
deriving DecidableEq, Inhabited

/-- `pat` is an initial segment of `l`. -/
def charsStart : List Char → List Char → Bool
  | [], _ => true
  | _ :: _, [] => false
  | c :: cs, d :: ds => c == d && charsStart cs ds

/-- `s.startswith(pat)`. -/
def strStarts (s pat : String) : Bool := charsStart pat.toList s.toList

/-- Does the row survive the URL filter: `r['pagePath'] == p or
r['pagePath'].startswith(p)` for some translated path. -/
def rowMatches (paths : List String) (r : PageRow) : Bool :=
  paths.any (fun q => r.pagePath == q || strStarts r.pagePath q)

/-- The URL filter of `get_page_performance` (lines 221–227): translate
the supplied URLs to paths, keep the matching rows, and fall back to the
unfiltered rows when nothing matches. -/
def filterByUrls (urls : List String) (rows : List PageRow) : List PageRow :=
  if urls = [] then rows
  else
    let paths := urlPathsOf urls
    if paths = [] then rows
    else
      let filtered := rows.filter (rowMatches paths)
      if filtered = [] then rows else filtered

/-- The in-progress aggregate record for one page: the running sums, the
three breakdown dicts and the four weighted accumulators (the `_`-named
working fields of the source, deleted after finalization). -/
structure PageAgg where
  pagePath : String
  sessions : ℚ
  totalUsers : ℚ
  newUsers : ℚ
  engagedSessions : ℚ
  eventCount : ℚ
  userEngagementDuration : ℚ
  devices : List (String × ℚ)
  sources : List (String × ℚ)
  channels : List (String × ℚ)
  wBounce : ℚ
  wDuration : ℚ
  wPps : ℚ
  wEngRate : ℚ
deriving DecidableEq, Inhabited

/-- The freshly created record for a page seen for the first time. -/
def emptyAgg (path : String) : PageAgg :=
  ⟨path, 0, 0, 0, 0, 0, 0, [], [], [], 0, 0, 0, 0⟩

/-- Fold one row into a page's aggregate (lines 244–267). -/
def addRow (a : PageAgg) (r : PageRow) : PageAgg :=
  let s := r.sessions
  { a with
    sessions := a.sessions + s
    totalUsers := a.totalUsers + r.totalUsers
    newUsers := a.newUsers + r.newUsers
    engagedSessions := a.engagedSessions + r.engagedSessions
    eventCount := a.eventCount + r.eventCount
    userEngagementDuration := a.userEngagementDuration + r.userEngagementDuration
    wBounce := a.wBounce + r.bounceRate * s
    wDuration := a.wDuration + r.averageSessionDuration * s
    wPps := a.wPps + r.screenPageViewsPerSession * s
    wEngRate := a.wEngRate + r.engagementRate * s
    devices := bump a.devices r.deviceCategory s
    sources := bump a.sources (r.sessionSource ++ " / " ++ r.sessionMedium) s
    channels := bump a.channels r.sessionDefaultChannelGroup s }

/-- One step of the aggregation loop: resolve or create the page's
record, then fold the row in. -/
def stepPage (pages : List (String × PageAgg)) (r : PageRow) : List (String × PageAgg) :=
  alSet pages r.pagePath (addRow ((alGet? pages r.pagePath).getD (emptyAgg r.pagePath)) r)

/-- The `pages` dict after folding all rows (lines 230–267). -/
def aggregatePages (rows : List PageRow) : List (String × PageAgg) :=
  rows.foldl stepPage []

/-- The finalized per-page record.  The five weighted/derived metrics and
`returningUsers` are `Option`s because the source only assigns those keys
inside `if t > 0:` — for a zero-session group the keys are absent from
the returned dict. -/
structure PageRecord where
  pagePath : String
  sessions : ℚ
  totalUsers : ℚ
  newUsers : ℚ
  engagedSessions : ℚ
  eventCount : ℚ
  userEngagementDuration : ℚ
  devices : List (String × ℚ)
  sources : List (String × ℚ)
  channels : List (String × ℚ)
  bounceRate : Option ℚ
  averageSessionDuration : Option ℚ
  pagesPerSession : Option ℚ
  engagementRate : Option ℚ
  avgEngagementDuration : Option ℚ
  returningUsers : Option ℚ
deriving DecidableEq, Inhabited

/-- Finalization of one group (lines 270–282): divide the weighted
accumulators by the session total when it is positive, round, and drop
the working fields. -/
def finalizePage (a : PageAgg) : PageRecord :=
  { pagePath := a.pagePath
    sessions := a.sessions
    totalUsers := a.totalUsers
    newUsers := a.newUsers
    engagedSessions := a.engagedSessions
    eventCount := a.eventCount
    userEngagementDuration := a.userEngagementDuration
    devices := a.devices
    sources := a.sources
    channels := a.channels
    bounceRate := if a.sessions > 0 then some (roundTo 4 (a.wBounce / a.sessions)) else none
    averageSessionDuration := if a.sessions > 0 then some (roundTo 2 (a.wDuration / a.sessions)) else none
    pagesPerSession := if a.sessions > 0 then some (roundTo 2 (a.wPps / a.sessions)) else none
    engagementRate := if a.sessions > 0 then some (roundTo 4 (a.wEngRate / a.sessions)) else none
    avgEngagementDuration := if a.sessions > 0 then some (roundTo 2 (a.userEngagementDuration / a.sessions)) else none
    returningUsers := if a.sessions > 0 then some (a.totalUsers - a.newUsers) else none }

/-- `list(pages.values())` after finalization. -/
def aggregatePagesFinal (rows : List PageRow) : List PageRecord :=
  (aggregatePages rows).map (fun e => finalizePage e.2)

/-- The pure part of `get_page_performance`: URL filter, then grouped
aggregation with finalization. -/
def get_page_performance (urls : List String) (rows : List PageRow) : List PageRecord :=
  aggregatePagesFinal (filterByUrls urls rows)

/-! ## The legacy aggregator `aggregate_basic` (lines 131–160) -/

structure BasicRow where
  pagePath : String
  deviceCategory : String
  sessions : ℚ
  totalUsers : ℚ
  bounceRate : ℚ
  averageSessionDuration : ℚ
  engagedSessions : ℚ
deriving DecidableEq, Inhabited

/-- The legacy aggregate record.  `bounceRate` and
`averageSessionDuration` are initialized to 0 on creation and only
overwritten during finalization when the session total is positive. -/
structure BasicAgg where
  pagePath : String
  sessions : ℚ
  totalUsers : ℚ
  bounceRate : ℚ
  averageSessionDuration : ℚ
  engagedSessions : ℚ
  devices : List (String × ℚ)
deriving DecidableEq, Inhabited

def emptyBasic (path : String) : BasicAgg := ⟨path, 0, 0, 0, 0, 0, []⟩

/-- Fold one row in (lines 143–149): sums plus an *appended* device
entry (the legacy version keeps a list, not a tally dict). -/
def addBasic (a : BasicAgg) (r : BasicRow) : BasicAgg :=
  { a with
    sessions := a.sessions + r.sessions
    totalUsers := a.totalUsers + r.totalUsers
    engagedSessions := a.engagedSessions + r.engagedSessions
    devices := a.devices ++ [(r.deviceCategory, r.sessions)] }

def aggregateBasicRaw (results : List BasicRow) : List (String × BasicAgg) :=
  results.foldl (fun acc r =>
    alSet acc r.pagePath (addBasic ((alGet? acc r.pagePath).getD (emptyBasic r.pagePath)) r)) []

/-- Finalization (lines 151–159): when the accumulated session count is
positive, recompute the two weighted metrics from the *original* row
list, filtered by path, exactly as the source does. -/
def finalizeBasic (results : List BasicRow) (path : String) (a : BasicAgg) : BasicAgg :=
  if a.sessions > 0 then
    { a with
      bounceRate := roundTo 4
        ((((results.filter (fun r => r.pagePath == path)).map
            (fun r => r.bounceRate * r.sessions)).sum) / a.sessions)
      averageSessionDuration := roundTo 2
        ((((results.filter (fun r => r.pagePath == path)).map
            (fun r => r.averageSessionDuration * r.sessions)).sum) / a.sessions) }
  else a

/-- `aggregate_basic`: the returned dict, as an insertion-ordered
association list. -/
def aggregate_basic (results : List BasicRow) : List (String × BasicAgg) :=
  (aggregateBasicRaw results).map (fun e => (e.1, finalizeBasic results e.1 e.2))

/-! ## The event filter of `get_event_data` (lines 287–298) -/

structure EventRow where
  eventName : String
  eventCount : ℚ
  totalUsers : ℚ
deriving DecidableEq, Inhabited

/-- The fixed denylist `noise_events`. -/
def noise_events : List String :=
  ["session_start", "first_visit", "page_view", "user_engagement", "scroll"]

/-- `[r for r in rows if r['eventName'] not in noise_events]`. -/
def get_event_data (rows : List EventRow) : List EventRow :=
  rows.filter (fun r => !(noise_events.contains r.eventName))

/-! ## The summary serializer `build_data_summary` (lines 474–674)

The serializer is a pure function of the collected-data object.  Its
input types mirror the dict accesses the source performs: fields indexed
with `d[k]` are plain, fields read with `d.get(k, default)` are
`Option`s.  A `PageRecord` whose weighted fields are absent would raise
`KeyError` at `page['bounceRate']`; the serializer's input type `SPage`
therefore carries the keys its successful executions index, with the
`.get`-accessed keys optional exactly as in the source. -/

/-- A page dict as the serializer reads it: `sessions`, `totalUsers`,
`newUsers`, `eventCount`, `bounceRate`, `engagementRate` and
`averageSessionDuration` are indexed directly; `returningUsers`,
`avgEngagementDuration`, `pagesPerSession` and the three breakdowns are
read via `.get` with a default. -/
structure SPage where
  pagePath : String
  sessions : ℚ
  totalUsers : ℚ
  newUsers : ℚ
  eventCount : ℚ
  bounceRate : ℚ
  engagementRate : ℚ
  averageSessionDuration : ℚ
  returningUsers : Option ℚ
  avgEngagementDuration : Option ℚ
  pagesPerSession : Option ℚ
  devices : List (String × ℚ)
  channels : List (String × ℚ)
  sources : List (String × ℚ)
deriving DecidableEq, Inhabited

/-- One period block of `all_data`: label, the two preformatted date
range strings, and the `totals` comparison dict. -/
structure PeriodTotals where
  label : String
  currentRange : String
  previousRange : String
  totals : List (String × Comparison)
deriving DecidableEq, Inhabited

structure LandingRow where
  landingPage : String
  sessionDefaultChannelGroup : String
  sessions : ℚ
deriving DecidableEq, Inhabited

structure GeoRow where
  country : String
  city : String
  sessions : ℚ
  engagementRate : ℚ
deriving DecidableEq, Inhabited

/-- A time-of-day row; `hour` and `dayOfWeek` carry the integer the
source obtains with `int(...)` from the GA4 digit strings. -/
structure TodRow where
  hour : ℤ
  dayOfWeek : ℤ
  sessions : ℚ
deriving DecidableEq, Inhabited

structure AcqRow where
  sessionDefaultChannelGroup : String
  sessions : ℚ
  newUsers : ℚ
  bounceRate : ℚ
  engagementRate : ℚ
deriving DecidableEq, Inhabited

/-- The combined result consumed by the serializer. -/
structure CombinedResult where
  last7 : PeriodTotals
  last30 : PeriodTotals
  yoy : PeriodTotals
  pagePerfCurrent : List SPage
  pagePerfPrevious : List SPage
  pagePerf30d : List SPage
  events : List EventRow
  landingPages : List LandingRow
  geographic : List GeoRow
  timeOfDay : List TodRow
  acquisition : List AcqRow
deriving DecidableEq, Inhabited

/-- `"=" * 60`. -/
def sepLine : String := String.mk (List.replicate 60 '=')

/-- `f"{pct:+.1f}%" if pct is not None else "N/A"` (line 496). -/
def pctRender (pct : Option ℚ) : String :=
  match pct with
  | some p => fmtSignedFix1 p ++ "%"
  | none => "N/A"

/-- One totals line (lines 499–504): rates as percentages, the duration
with one decimal and an `s`, everything else with separators. -/
def totalLine (metric : String) (v : Comparison) : String :=
  let ps := pctRender v.change_pct
  if metric = "bounceRate" ∨ metric = "engagementRate" then
    "  " ++ metric ++ ": " ++ fmtPct1 v.current.toQ ++ " (was " ++ fmtPct1 v.previous.toQ ++
      ", change: " ++ ps ++ ")"
  else if metric = "averageSessionDuration" then
    "  " ++ metric ++ ": " ++ fmtFix1 v.current.toQ ++ "s (was " ++ fmtFix1 v.previous.toQ ++
      "s, change: " ++ ps ++ ")"
  else
    "  " ++ metric ++ ": " ++ fmtCommaVal v.current ++ " (was " ++ fmtCommaVal v.previous ++
      ", change: " ++ ps ++ ")"

/-- One period's block of the site-level section (lines 486–504). -/
def periodLines (pd : PeriodTotals) : List String :=
  ("\n--- " ++ pd.label ++ " ---") ::
  ("Current period: " ++ pd.currentRange) ::
  ("Comparison period: " ++ pd.previousRange) ::
  pd.totals.map (fun e => totalLine e.1 e.2)

/-- `f"{k}: {v}"` for a breakdown entry. -/
def tallyStr (e : String × ℚ) : String := e.1 ++ ": " ++ fmtPlainQ e.2

/-- One page's block of the 7-day page-performance section
(lines 518–554), including the week-over-week comparison when the page
existed in the previous period. -/
def pageBlock (prevLookup : String → Option SPage) (page : SPage) : List String :=
  [ "\n  Page: " ++ page.pagePath,
    "    Sessions: " ++ fmtCommaQ page.sessions,
    "    Users: " ++ fmtCommaQ page.totalUsers ++ " (new: " ++ fmtCommaQ page.newUsers ++
      ", returning: " ++ fmtCommaQ (page.returningUsers.getD 0) ++ ")",
    "    Bounce rate: " ++ fmtPct1 page.bounceRate,
    "    Engagement rate: " ++ fmtPct1 page.engagementRate,
    "    Avg session duration: " ++ fmtFix1 page.averageSessionDuration ++ "s",
    "    Avg engagement duration: " ++ fmtFix1 (page.avgEngagementDuration.getD 0) ++ "s",
    "    Pages per session: " ++ fmtFix1 (page.pagesPerSession.getD 0),
    "    Events fired: " ++ fmtCommaQ page.eventCount ]
  ++ (if page.devices.isEmpty then [] else
      ["    Devices: " ++ joinComma ((sortDescBy (fun e => e.2) page.devices).map tallyStr)])
  ++ (if page.channels.isEmpty then [] else
      ["    Top channels: " ++
        joinComma (((sortDescBy (fun e => e.2) page.channels).take 5).map tallyStr)])
  ++ (if page.sources.isEmpty then [] else
      ["    Top sources: " ++
        joinComma (((sortDescBy (fun e => e.2) page.sources).take 5).map tallyStr)])
  ++ (match prevLookup page.pagePath with
      | none => []
      | some prev =>
        let sChange := page.sessions - prev.sessions
        let sPct := if prev.sessions > 0 then sChange / prev.sessions * 100 else 0
        ["    vs previous 7 days: sessions " ++ fmtSignedCommaQ sChange ++
          " (" ++ fmtSignedFix1 sPct ++ "%), bounce " ++
          fmtSignedPct1 (page.bounceRate - prev.bounceRate)])

/-- One page's block of the 30-day section (lines 564–569). -/
def page30Block (page : SPage) : List String :=
  [ "\n  Page: " ++ page.pagePath,
    "    Sessions: " ++ fmtCommaQ page.sessions ++ " | Users: " ++ fmtCommaQ page.totalUsers,
    "    Bounce: " ++ fmtPct1 page.bounceRate ++ " | Engagement: " ++ fmtPct1 page.engagementRate,
    "    Avg duration: " ++ fmtFix1 page.averageSessionDuration ++ "s" ]

/-- One event line (line 579). -/
def eventLine (ev : EventRow) : String :=
  "  " ++ ev.eventName ++ ": " ++ fmtCommaQ ev.eventCount ++ " events by " ++
    fmtCommaQ ev.totalUsers ++ " users"

/-- The landing-page aggregate built at lines 588–595. -/
structure LpAgg where
  sessions : ℚ
  channels : List (String × ℚ)
deriving DecidableEq, Inhabited

def lpStep (acc : List (String × LpAgg)) (lp : LandingRow) : List (String × LpAgg) :=
  let cur := (alGet? acc lp.landingPage).getD ⟨0, []⟩
  alSet acc lp.landingPage
    ⟨cur.sessions + lp.sessions, bump cur.channels lp.sessionDefaultChannelGroup lp.sessions⟩

/-- One landing-page line (lines 597–599). -/
def lpLine (e : String × LpAgg) : String :=
  "  " ++ e.1 ++ ": " ++ fmtCommaQ e.2.sessions ++ " sessions (channels: " ++
    joinComma (((sortDescBy (fun c => c.2) e.2.channels).take 3).map tallyStr) ++ ")"

/-- One top-city line (line 619). -/
def cityLine (g : GeoRow) : String :=
  "    " ++ g.city ++ ", " ++ g.country ++ ": " ++ fmtCommaQ g.sessions ++
    " sessions (engagement: " ++ fmtPct1 g.engagementRate ++ ")"

def dayNamesL : List String :=
  ["Sunday", "Monday", "Tuesday", "Wednesday", "Thursday", "Friday", "Saturday"]

/-- `day_names[d]`, including Python's negative indexing for
`-7 ≤ d < 0`; an index outside `[-7, 7)` raises `IndexError` in the
source and is out of the model's domain (rendered `""`). -/
def dayName (d : ℤ) : String :=
  if 0 ≤ d then dayNamesL.getD d.toNat "" else dayNamesL.getD (d + 7).toNat ""

/-- The acquisition-channel aggregate built at lines 658–666. -/
structure AcqAgg where
  sessions : ℚ
  newUsers : ℚ
  bw : ℚ
  ew : ℚ
deriving DecidableEq, Inhabited

def acqStep (acc : List (String × AcqAgg)) (a : AcqRow) : List (String × AcqAgg) :=
  let cur := (alGet? acc a.sessionDefaultChannelGroup).getD ⟨0, 0, 0, 0⟩
  alSet acc a.sessionDefaultChannelGroup
    ⟨cur.sessions + a.sessions, cur.newUsers + a.newUsers,
     cur.bw + a.bounceRate * a.sessions, cur.ew + a.engagementRate * a.sessions⟩

/-- One acquisition line (lines 668–672), with the zero-guarded weighted
rates. -/
def acqLine (e : String × AcqAgg) : String :=
  let s := e.2.sessions
  let br := if s > 0 then e.2.bw / s else 0
  let er := if s > 0 then e.2.ew / s else 0
  "  " ++ e.1 ++ ": " ++ fmtCommaQ s ++ " sessions, " ++ fmtCommaQ e.2.newUsers ++
    " new users, bounce: " ++ fmtPct1 br ++ ", engagement: " ++ fmtPct1 er

/-- The `lines` list of `build_data_summary`, element for element. -/
def buildSummaryLines (d : CombinedResult) : List String :=
  let part1 := [sepLine, "SITE-LEVEL TRENDS ACROSS PERIODS", sepLine]
    ++ periodLines d.last7 ++ periodLines d.last30 ++ periodLines d.yoy
  let prevLookup := fun path => d.pagePerfPrevious.reverse.find? (fun p => p.pagePath == path)
  let part2 := ["\n" ++ sepLine, "PAGE PERFORMANCE — LAST 7 DAYS", sepLine]
    ++ ((sortDescBy (fun x => x.sessions) d.pagePerfCurrent).take 15).flatMap (pageBlock prevLookup)
  let part3 := ["\n" ++ sepLine, "PAGE PERFORMANCE — LAST 30 DAYS", sepLine]
    ++ ((sortDescBy (fun x => x.sessions) d.pagePerf30d).take 10).flatMap page30Block
  let part4 := ["\n" ++ sepLine, "USER EVENTS (excluding default GA4 events)", sepLine]
    ++ ((sortDescBy (fun x => x.eventCount) d.events).take 15).map eventLine
  let lpAgg := d.landingPages.foldl lpStep []
  let part5 := ["\n" ++ sepLine, "LANDING PAGES (entry points)", sepLine]
    ++ ((sortDescBy (fun e => e.2.sessions) lpAgg).take 10).map lpLine
  let countryAgg := d.geographic.foldl (fun acc g => bump acc g.country g.sessions) []
  let part6 := ["\n" ++ sepLine, "GEOGRAPHIC BREAKDOWN", sepLine]
    ++ ((sortDescBy (fun e => e.2) countryAgg).take 10).map
        (fun e => "  " ++ e.1 ++ ": " ++ fmtCommaQ e.2 ++ " sessions")
    ++ ["  Top cities:"]
    ++ ((sortDescBy (fun g => g.sessions) d.geographic).take 10).map cityLine
  let hourAgg := d.timeOfDay.foldl (fun acc t => bump acc t.hour t.sessions) []
  let dayAgg := d.timeOfDay.foldl (fun acc t => bump acc t.dayOfWeek t.sessions) []
  let part7 := ["\n" ++ sepLine, "TRAFFIC PATTERNS BY TIME", sepLine]
    ++ (match maxEntry hourAgg, minEntry hourAgg with
        | some pk, some qt =>
          [ "  Peak hour: " ++ intPlainStr pk.1 ++ ":00 (" ++ fmtCommaQ pk.2 ++ " sessions)",
            "  Quietest hour: " ++ intPlainStr qt.1 ++ ":00 (" ++ fmtCommaQ qt.2 ++ " sessions)" ]
        | _, _ => [])
    ++ (match maxEntry dayAgg with
        | some pk =>
          ("  Peak day: " ++ dayName pk.1 ++ " (" ++ fmtCommaQ pk.2 ++ " sessions)") ::
          ((List.range 7).filterMap (fun dd =>
            match alGet? dayAgg (dd : ℤ) with
            | some v => some ("    " ++ dayName (dd : ℤ) ++ ": " ++ fmtCommaQ v)
            | none => none))
        | none => [])
  let acqAgg := d.acquisition.foldl acqStep []
  let part8 := ["\n" ++ sepLine, "ACQUISITION CHANNELS", sepLine]
    ++ (sortDescBy (fun e => e.2.sessions) acqAgg).map acqLine
  part1 ++ part2 ++ part3 ++ part4 ++ part5 ++ part6 ++ part7 ++ part8

/-- `build_data_summary`: `"\n".join(lines)`. -/
def build_data_summary (d : CombinedResult) : String :=
  String.intercalate "\n" (buildSummaryLines d)

/-! ## Denotation of the grouped aggregator

The fold of `aggregatePages` is characterised group by group: the record
stored under a path is the fold of exactly the rows carrying that path,
and each scalar field of that record is a plain sum over those rows. -/

/-- The rows contributing to group `p`. -/
def filterPath (rows : List PageRow) (p : String) : List PageRow :=
  rows.filter (fun r => r.pagePath == p)

/-- How a batch of same-path rows transforms the optional stored record:
absent stays absent only when the batch is empty; otherwise the fold
starts from the stored record or from a fresh one. -/
def groupFold (p : String) (o : Option PageAgg) (l : List PageRow) : Option PageAgg :=
  match o, l with
  | none, [] => none
  | none, l => some (l.foldl addRow (emptyAgg p))
  | some a, l => some (l.foldl addRow a)

theorem groupFold_nil (p : String) (o : Option PageAgg) : groupFold p o [] = o := by
  cases o <;> simp [groupFold]

theorem foldl_stepPage_alGet? (rows : List PageRow) (acc : List (String × PageAgg)) (p : String) :
    alGet? (rows.foldl stepPage acc) p = groupFold p (alGet? acc p) (filterPath rows p) := by
  induction rows generalizing acc with
  | nil => simp [filterPath, groupFold_nil]
  | cons r rest ih =>
    by_cases hr : r.pagePath = p
    · have hstep : alGet? (stepPage acc r) p =
          some (addRow ((alGet? acc p).getD (emptyAgg p)) r) := by
        rw [stepPage, hr, alGet?_alSet_same]
      have hfilter : filterPath (r :: rest) p = r :: filterPath rest p := by
        simp [filterPath, hr]
      rw [List.foldl_cons, ih, hstep, hfilter]
      cases hacc : alGet? acc p with
      | none =>
        cases hrest : filterPath rest p with
        | nil => simp [groupFold]
        | cons x xs => simp [groupFold]
      | some a =>
        cases hrest : filterPath rest p with
        | nil => simp [groupFold]
        | cons x xs => simp [groupFold]
    · have hstep : alGet? (stepPage acc r) p = alGet? acc p := by
        rw [stepPage]
        exact alGet?_alSet_other _ _ _ _ (fun h => hr h.symm)
      have hfilter : filterPath (r :: rest) p = filterPath rest p := by
        simp [filterPath, hr]
      rw [List.foldl_cons, ih, hstep, hfilter]

/-- Any scalar reading of a record that `addRow` advances additively is,
after a fold, the starting value plus a sum over the rows. -/
theorem foldl_addRow_field (f : PageAgg → ℚ) (g : PageRow → ℚ)
    (hfg : ∀ a r, f (addRow a r) = f a + g r) :
    ∀ (l : List PageRow) (a : PageAgg), f (l.foldl addRow a) = f a + (l.map g).sum := by
  intro l
  induction l with
  | nil => simp
  | cons r rest ih =>
    intro a
    rw [List.foldl_cons, ih, hfg]
    simp [add_assoc]

theorem foldl_addRow_pagePath (l : List PageRow) (a : PageAgg) :
    (l.foldl addRow a).pagePath = a.pagePath := by
  induction l generalizing a with
  | nil => rfl
  | cons r rest ih => rw [List.foldl_cons, ih]; rfl

theorem aggregatePages_keys_nodup (rows : List PageRow) :
    ((aggregatePages rows).map Prod.fst).Nodup := by
  have h : ∀ (l : List PageRow) (acc : List (String × PageAgg)),
      (acc.map Prod.fst).Nodup → ((l.foldl stepPage acc).map Prod.fst).Nodup := by
    intro l
    induction l with
    | nil => intro acc h; simpa using h
    | cons r rest ih =>
      intro acc hacc
      exact ih _ (alSet_keys_nodup _ _ _ hacc)
  exact h rows [] (by simp)

/-- Every entry of the `pages` dict is the fold of exactly the rows with
its path, and such rows exist. -/
theorem aggregatePages_entry (rows : List PageRow) (e : String × PageAgg)
    (he : e ∈ aggregatePages rows) :
    filterPath rows e.1 ≠ [] ∧ e.2 = (filterPath rows e.1).foldl addRow (emptyAgg e.1) := by
  have hget : alGet? (aggregatePages rows) e.1 = some e.2 :=
    alGet?_of_mem _ _ _ (aggregatePages_keys_nodup rows) (by simpa using he)
  rw [aggregatePages, foldl_stepPage_alGet?] at hget
  simp only [alGet?] at hget
  cases hl : filterPath rows e.1 with
  | nil => rw [hl] at hget; simp [groupFold] at hget
  | cons x xs =>
    rw [hl] at hget
    simp only [groupFold] at hget
    exact ⟨by simp, (Option.some_injective _ hget).symm⟩

/-! ### Per-group observables of the aggregation -/

/-- A scalar field of the record stored for group `p` (0 when the group
does not exist). -/
def aggField (f : PageAgg → ℚ) (rows : List PageRow) (p : String) : ℚ :=
  ((alGet? (aggregatePages rows) p).map f).getD 0

def sessionsAt (rows : List PageRow) (p : String) : ℚ := aggField (fun a => a.sessions) rows p
def totalUsersAt (rows : List PageRow) (p : String) : ℚ := aggField (fun a => a.totalUsers) rows p
def newUsersAt (rows : List PageRow) (p : String) : ℚ := aggField (fun a => a.newUsers) rows p
def engagedSessionsAt (rows : List PageRow) (p : String) : ℚ := aggField (fun a => a.engagedSessions) rows p
def eventCountAt (rows : List PageRow) (p : String) : ℚ := aggField (fun a => a.eventCount) rows p
def engagementDurationAt (rows : List PageRow) (p : String) : ℚ := aggField (fun a => a.userEngagementDuration) rows p
def wBounceAt (rows : List PageRow) (p : String) : ℚ := aggField (fun a => a.wBounce) rows p
def wDurationAt (rows : List PageRow) (p : String) : ℚ := aggField (fun a => a.wDuration) rows p
def wPpsAt (rows : List PageRow) (p : String) : ℚ := aggField (fun a => a.wPps) rows p
def wEngRateAt (rows : List PageRow) (p : String) : ℚ := aggField (fun a => a.wEngRate) rows p

/-- The device-breakdown tally of group `p` at device `d`. -/
def deviceTallyAt (rows : List PageRow) (p d : String) : ℚ :=
  aggField (fun a => (alGet? a.devices d).getD 0) rows p

def sourceTallyAt (rows : List PageRow) (p d : String) : ℚ :=
  aggField (fun a => (alGet? a.sources d).getD 0) rows p

def channelTallyAt (rows : List PageRow) (p d : String) : ℚ :=
  aggField (fun a => (alGet? a.channels d).getD 0) rows p

/-- The finalized record of group `p`, when the group exists. -/
def finalAt (rows : List PageRow) (p : String) : Option PageRecord :=
  (alGet? (aggregatePages rows) p).map finalizePage

theorem aggField_eq (f : PageAgg → ℚ) (g : PageRow → ℚ)
    (hfg : ∀ a r, f (addRow a r) = f a + g r) (hf0 : ∀ q, f (emptyAgg q) = 0)
    (rows : List PageRow) (p : String) :
    aggField f rows p = ((filterPath rows p).map g).sum := by
  rw [aggField, aggregatePages, foldl_stepPage_alGet?]
  simp only [alGet?]
  cases hl : filterPath rows p with
  | nil => simp [groupFold]
  | cons x xs =>
    show f (List.foldl addRow (emptyAgg p) (x :: xs)) = (List.map g (x :: xs)).sum
    rw [foldl_addRow_field f g hfg, hf0, zero_add]

theorem sessionsAt_eq (rows : List PageRow) (p : String) :
    sessionsAt rows p = ((filterPath rows p).map (fun r => r.sessions)).sum :=
  aggField_eq _ _ (fun _ _ => rfl) (fun _ => rfl) rows p

theorem totalUsersAt_eq (rows : List PageRow) (p : String) :
    totalUsersAt rows p = ((filterPath rows p).map (fun r => r.totalUsers)).sum :=
  aggField_eq _ _ (fun _ _ => rfl) (fun _ => rfl) rows p

theorem newUsersAt_eq (rows : List PageRow) (p : String) :
    newUsersAt rows p = ((filterPath rows p).map (fun r => r.newUsers)).sum :=
  aggField_eq _ _ (fun _ _ => rfl) (fun _ => rfl) rows p

theorem engagedSessionsAt_eq (rows : List PageRow) (p : String) :
    engagedSessionsAt rows p = ((filterPath rows p).map (fun r => r.engagedSessions)).sum :=
  aggField_eq _ _ (fun _ _ => rfl) (fun _ => rfl) rows p

theorem eventCountAt_eq (rows : List PageRow) (p : String) :
    eventCountAt rows p = ((filterPath rows p).map (fun r => r.eventCount)).sum :=
  aggField_eq _ _ (fun _ _ => rfl) (fun _ => rfl) rows p

theorem engagementDurationAt_eq (rows : List PageRow) (p : String) :
    engagementDurationAt rows p = ((filterPath rows p).map (fun r => r.userEngagementDuration)).sum :=
  aggField_eq _ _ (fun _ _ => rfl) (fun _ => rfl) rows p

theorem wBounceAt_eq (rows : List PageRow) (p : String) :
    wBounceAt rows p = ((filterPath rows p).map (fun r => r.bounceRate * r.sessions)).sum :=
  aggField_eq _ _ (fun _ _ => rfl) (fun _ => rfl) rows p

theorem wDurationAt_eq (rows : List PageRow) (p : String) :
    wDurationAt rows p = ((filterPath rows p).map (fun r => r.averageSessionDuration * r.sessions)).sum :=
  aggField_eq _ _ (fun _ _ => rfl) (fun _ => rfl) rows p

theorem wPpsAt_eq (rows : List PageRow) (p : String) :
    wPpsAt rows p = ((filterPath rows p).map (fun r => r.screenPageViewsPerSession * r.sessions)).sum :=
  aggField_eq _ _ (fun _ _ => rfl) (fun _ => rfl) rows p

theorem wEngRateAt_eq (rows : List PageRow) (p : String) :
    wEngRateAt rows p = ((filterPath rows p).map (fun r => r.engagementRate * r.sessions)).sum :=
  aggField_eq _ _ (fun _ _ => rfl) (fun _ => rfl) rows p

theorem deviceTallyAt_eq (rows : List PageRow) (p d : String) :
    deviceTallyAt rows p d =
      ((filterPath rows p).map (fun r => if d = r.deviceCategory then r.sessions else 0)).sum :=
  aggField_eq _ _ (fun a r => alGet?_bump a.devices r.deviceCategory d r.sessions)
    (fun _ => rfl) rows p

theorem sourceTallyAt_eq (rows : List PageRow) (p d : String) :
    sourceTallyAt rows p d =
      ((filterPath rows p).map
        (fun r => if d = r.sessionSource ++ " / " ++ r.sessionMedium then r.sessions else 0)).sum :=
  aggField_eq _ _
    (fun a r => alGet?_bump a.sources (r.sessionSource ++ " / " ++ r.sessionMedium) d r.sessions)
    (fun _ => rfl) rows p

theorem channelTallyAt_eq (rows : List PageRow) (p d : String) :
    channelTallyAt rows p d =
      ((filterPath rows p).map
        (fun r => if d = r.sessionDefaultChannelGroup then r.sessions else 0)).sum :=
  aggField_eq _ _
    (fun a r => alGet?_bump a.channels r.sessionDefaultChannelGroup d r.sessions)
    (fun _ => rfl) rows p

/-! ## Claim theorems -/

/-- The entry `calculateChanges` would produce for metric `m`, as a
key-value pair. -/
def changeEntry? (cur prev : List (String × GAValue)) (m : String) :
    Option (String × Comparison) :=
  let c := snapGet cur m
  let p := snapGet prev m
  if c.isNum && p.isNum then some (m, ⟨c, p, changePct c.toQ p.toQ⟩) else none

theorem calculateChanges_eq_filterMap (cur prev : List (String × GAValue)) :
    calculateChanges cur prev = cur.filterMap (fun e => changeEntry? cur prev e.1) := rfl

theorem alGet?_filterMap_changeEntry (cur prev : List (String × GAValue)) (m : String) :
    ∀ l : List (String × GAValue),
      alGet? (l.filterMap (fun e => changeEntry? cur prev e.1)) m =
        match alGet? l m with
        | none => none
        | some _ => (changeEntry? cur prev m).map Prod.snd := by
  intro l
  induction l with
  | nil => simp [alGet?]
  | cons e rest ih =>
    by_cases hm : e.1 = m
    · rw [List.filterMap_cons]
      cases hc : changeEntry? cur prev e.1 with
      | none =>
        rw [ih]
        have hcm : changeEntry? cur prev m = none := hm ▸ hc
        cases hrest : alGet? rest m <;> simp [alGet?, hm, hcm]
      | some v =>
        have hv : v.1 = m := by
          rw [hm] at hc
          simp only [changeEntry?] at hc
          split at hc
          · cases hc; rfl
          · cases hc
        simp [alGet?, hv, hm ▸ hc, hm]
    · rw [List.filterMap_cons]
      cases hc : changeEntry? cur prev e.1 with
      | none => rw [ih]; simp [alGet?, hm]
      | some v =>
        have hv : v.1 = e.1 := by
          simp only [changeEntry?] at hc
          split at hc
          · cases hc; rfl
          · cases hc
        have hvm : ¬ v.1 = m := hv ▸ hm
        show (if v.1 = m then some v.2 else _) = _
        rw [if_neg hvm, ih]
        show _ = (match (if e.1 = m then some e.2 else alGet? rest m) with
          | none => none
          | some _ => (changeEntry? cur prev m).map Prod.snd)
        rw [if_neg hm]

/-- C2: the period comparator produces an entry exactly for each metric
present in the current snapshot with a numeric value whose previous
lookup (defaulting to 0 when absent) is also numeric; the entry holds the
two values and `change_pct = round(((current-previous)/previous)*100, 1)`
when `previous > 0`, and `change_pct = None` (never 0, never an error)
when `previous ≤ 0`; metrics absent from the current snapshot are never
reported, and non-numeric values are skipped, not coerced. -/
theorem c2_period_comparator (cur prev : List (String × GAValue)) (m : String) :
    alGet? (calculateChanges cur prev) m =
      match alGet? cur m with
      | none => none
      | some _ =>
        if (snapGet cur m).isNum && (snapGet prev m).isNum then
          some ⟨snapGet cur m, snapGet prev m,
            if (snapGet prev m).toQ > 0 then
              some (roundTo 1
                (((snapGet cur m).toQ - (snapGet prev m).toQ) / (snapGet prev m).toQ * 100))
            else none⟩
        else none := by
  rw [calculateChanges_eq_filterMap, alGet?_filterMap_changeEntry]
  cases h : alGet? cur m with
  | none => rfl
  | some v =>
    simp only [changeEntry?, changePct]
    split <;> rfl

/-- C5: with a non-empty URL list, each URL is translated to its path and
exactly the rows whose `pagePath` equals or extends one of those paths are
retained; if that filter would keep nothing, the row set is returned
unchanged (fail-open), never empty. -/
theorem c5_url_filter_fail_open (urls : List String) (rows : List PageRow)
    (hne : urls ≠ []) :
    (rows.filter (rowMatches (urlPathsOf urls)) ≠ [] →
      filterByUrls urls rows = rows.filter (rowMatches (urlPathsOf urls))) ∧
    (rows.filter (rowMatches (urlPathsOf urls)) = [] →
      filterByUrls urls rows = rows) := by
  by_cases hp : urlPathsOf urls = []
  · constructor
    · intro hf
      exfalso
      apply hf
      apply List.filter_eq_nil_iff.2
      intro r _
      simp [rowMatches, hp]
    · intro _
      simp [filterByUrls, hne, hp]
  · constructor
    · intro hf
      simp [filterByUrls, hne, hp, hf]
    · intro hf
      simp [filterByUrls, hne, hp, hf]

/-- A page row carrying only a path, as the URL-filter statements need. -/
def pathRow (p : String) : PageRow :=
  ⟨p, "", "", "", "", 1, 0, 0, 0, 0, 0, 0, 0, 0, 0⟩

/-- Witness for C5, realising the spec's own example: filter `["/a"]` on
paths `/a`, `/a/b`, `/c` keeps the first two; a filter matching nothing
returns the input unchanged. -/
theorem c5_url_filter_fail_open_witness :
    filterByUrls ["https://x.com/a"] [pathRow "/a", pathRow "/a/b", pathRow "/c"] =
      [pathRow "/a", pathRow "/a/b"] ∧
    filterByUrls ["https://x.com/z"] [pathRow "/a", pathRow "/a/b", pathRow "/c"] =
      [pathRow "/a", pathRow "/a/b", pathRow "/c"] := by
  constructor
  · exact ((c5_url_filter_fail_open ["https://x.com/a"]
      [pathRow "/a", pathRow "/a/b", pathRow "/c"] (by decide)).1 (by decide)).trans (by decide)
  · exact (c5_url_filter_fail_open ["https://x.com/z"]
      [pathRow "/a", pathRow "/a/b", pathRow "/c"] (by decide)).2 (by decide)

/-- C7: the row normalizer tries an integer parse first, then a decimal
parse, then keeps the raw string; `"3.0"` becomes the decimal 3.0, never
the integer 3, and a non-numeric string is preserved unchanged. -/
theorem c7_numeric_coercion (s : String) :
    (∀ n : ℤ, pyInt? s = some n → coerceMetricValue s = .vInt n) ∧
    (∀ q : ℚ, pyInt? s = none → pyFloat? s = some q → coerceMetricValue s = .vFloat q) ∧
    (pyInt? s = none → pyFloat? s = none → coerceMetricValue s = .vStr s) ∧
    coerceMetricValue "3.0" = .vFloat 3 ∧
    pyInt? "3.0" = none := by
  refine ⟨?_, ?_, ?_, by decide, by decide⟩
  · intro n h
    simp [coerceMetricValue, h]
  · intro q h1 h2
    simp [coerceMetricValue, h1, h2]
  · intro h1 h2
    simp [coerceMetricValue, h1, h2]

/-- Witness for C7: the three branches at concrete inputs. -/
theorem c7_numeric_coercion_witness :
    coerceMetricValue "42" = .vInt 42 ∧
    coerceMetricValue "2.5" = .vFloat (5 / 2) ∧
    coerceMetricValue "(not set)" = .vStr "(not set)" :=
  ⟨(c7_numeric_coercion "42").1 42 (by decide),
   (c7_numeric_coercion "2.5").2.1 (5 / 2) (by decide) (by decide),
   (c7_numeric_coercion "(not set)").2.2.1 (by decide) (by decide)⟩

/-- C8: the event filter keeps exactly the rows whose `eventName` is not
in the fixed denylist, preserving order and contents; in particular an
input with `session_start` (500 events) and `signup_click` (12 events)
yields only the `signup_click` row. -/
theorem c8_event_denylist :
    (∀ rows : List EventRow,
      (get_event_data rows).Sublist rows ∧
      ∀ r : EventRow, (get_event_data rows).count r =
        if r.eventName ∈ noise_events then 0 else rows.count r) ∧
    get_event_data [⟨"session_start", 500, 400⟩, ⟨"signup_click", 12, 10⟩] =
      [⟨"signup_click", 12, 10⟩] := by
  refine ⟨fun rows => ⟨List.filter_sublist rows, fun r => ?_⟩, by decide⟩
  by_cases h : r.eventName ∈ noise_events
  · rw [if_pos h, List.count_eq_zero]
    intro hmem
    have hfalse := (List.mem_filter.1 hmem).2
    rw [Bool.not_eq_true', ← Bool.not_eq_true] at hfalse
    exact hfalse (List.elem_iff.2 h)
  · rw [if_neg h, get_event_data]
    exact List.count_filter (by simpa using h)

/-- C9: the summary serializer is deterministic — two applications to the
same `CombinedResult` give byte-identical text.  In this embedding every
mapping is an insertion-ordered association list, exactly the iteration
order of the Python 3.7+ dicts the source iterates, so the serializer is
a pure function and the two renderings coincide definitionally. -/
theorem c9_serializer_deterministic (d : CombinedResult) :
    build_data_summary d = build_data_summary d := rfl

/-- C10: a supplied non-empty URL with an empty path component is
translated to `"/"`, which prefix-matches every (slash-rooted) page path,
so the filter keeps all rows regardless of the other URLs supplied. -/
theorem c10_empty_path_url_no_op (urls : List String) (rows : List PageRow) (u : String)
    (hu : u ∈ urls) (hne : u ≠ "") (hpath : extractUrlPath u = "")
    (hroot : ∀ r ∈ rows, strStarts r.pagePath "/" = true) :
    filterByUrls urls rows = rows := by
  have hurls : urls ≠ [] := List.ne_nil_of_mem hu
  have hmem : "/" ∈ urlPathsOf urls := by
    rw [urlPathsOf]
    refine List.mem_map.2 ⟨u, List.mem_filter.2 ⟨hu, by simpa using hne⟩, ?_⟩
    rw [hpath]
    rfl
  have hall : rows.filter (rowMatches (urlPathsOf urls)) = rows := by
    apply List.filter_eq_self.2
    intro r hr
    apply List.any_eq_true.2
    exact ⟨"/", hmem, by simp [hroot r hr]⟩
  have hpne : urlPathsOf urls ≠ [] := List.ne_nil_of_mem hmem
  simp only [filterByUrls, if_neg hurls, if_neg hpne, hall]
  split <;> rfl

/-- Witness for C10: `https://example.com` (empty path) next to an
unrelated URL keeps every row. -/
theorem c10_empty_path_url_no_op_witness :
    filterByUrls ["https://example.com", "https://example.com/z"]
      [pathRow "/a", pathRow "/b/c"] = [pathRow "/a", pathRow "/b/c"] :=
  c10_empty_path_url_no_op _ _ "https://example.com"
    (by decide) (by decide) (by decide) (by decide)

/-! ### C1: zero-weight groups -/

theorem finalizePage_sessions (a : PageAgg) : (finalizePage a).sessions = a.sessions := rfl

theorem finalizeBasic_sessions (results : List BasicRow) (k : String) (a : BasicAgg) :
    (finalizeBasic results k a).sessions = a.sessions := by
  rw [finalizeBasic]
  split <;> rfl

theorem mem_of_alGet? [DecidableEq κ] (al : List (κ × α)) (k : κ) (v : α)
    (h : alGet? al k = some v) : (k, v) ∈ al := by
  induction al with
  | nil => simp [alGet?] at h
  | cons e rest ih =>
    by_cases hk : e.1 = k
    · rw [alGet?, if_pos hk] at h
      have : (k, v) = e := by
        cases e
        cases h
        cases hk
        rfl
      exact this ▸ List.mem_cons_self e rest
    · rw [alGet?, if_neg hk] at h
      exact List.mem_cons_of_mem _ (ih h)

/-- In the raw legacy fold, `bounceRate` and `averageSessionDuration` are
never touched: they keep their initial value 0 in every record. -/
theorem aggregateBasicRaw_zero_fields (results : List BasicRow) :
    ∀ e ∈ aggregateBasicRaw results, e.2.bounceRate = 0 ∧ e.2.averageSessionDuration = 0 := by
  have h : ∀ (l : List BasicRow) (acc : List (String × BasicAgg)),
      (∀ e ∈ acc, e.2.bounceRate = 0 ∧ e.2.averageSessionDuration = 0) →
      ∀ e ∈ l.foldl (fun acc r =>
        alSet acc r.pagePath (addBasic ((alGet? acc r.pagePath).getD (emptyBasic r.pagePath)) r)) acc,
        e.2.bounceRate = 0 ∧ e.2.averageSessionDuration = 0 := by
    intro l
    induction l with
    | nil => intro acc hacc; simpa using hacc
    | cons r rest ih =>
      intro acc hacc
      rw [List.foldl_cons]
      apply ih
      intro e he
      rcases mem_alSet _ _ _ _ he with h1 | h1
      · exact hacc e h1
      · subst h1
        have hbase : ((alGet? acc r.pagePath).getD (emptyBasic r.pagePath)).bounceRate = 0 ∧
            ((alGet? acc r.pagePath).getD (emptyBasic r.pagePath)).averageSessionDuration = 0 := by
          cases hget : alGet? acc r.pagePath with
          | none => simp [emptyBasic]
          | some a => simpa using hacc (r.pagePath, a) (mem_of_alGet? _ _ _ hget)
        exact hbase
  exact h results [] (by simp)

/-- A page-performance row whose session count (the aggregation weight)
is zero. -/
def zeroSessionRow : PageRow :=
  ⟨"/empty", "mobile", "google", "organic", "Organic Search",
    0, 2, 1, 3/5, 12, 0, 7, 2, 1/2, 4⟩

/-- C1 counterexample: a group aggregated from a single zero-session row
has total weight 0, yet its weighted-metric fields are *absent* from the
output record (`none`), not the neutral value 0 the claim asserts. -/
theorem c1_zero_weight_counterexample :
    ¬ (∀ p ∈ aggregatePagesFinal [zeroSessionRow], p.sessions = 0 →
        p.bounceRate = some 0 ∧ p.averageSessionDuration = some 0 ∧
        p.pagesPerSession = some 0 ∧ p.engagementRate = some 0 ∧
        p.avgEngagementDuration = some 0) := by decide

/-- C1 (amended): for a group with total weight 0 no division is
attempted and no exception or NaN arises, but the two aggregators differ
in how the weighted metrics finalize — `get_page_performance` omits all
five weighted fields (and `returningUsers`) from the output record,
while the legacy `aggregate_basic` leaves its pre-initialized
`bounceRate` and `averageSessionDuration` at 0. -/
theorem c1_zero_weight_behavior :
    (∀ (rows : List PageRow) (p : PageRecord), p ∈ aggregatePagesFinal rows →
      p.sessions = 0 →
        p.bounceRate = none ∧ p.averageSessionDuration = none ∧
        p.pagesPerSession = none ∧ p.engagementRate = none ∧
        p.avgEngagementDuration = none ∧ p.returningUsers = none) ∧
    (∀ (results : List BasicRow) (e : String × BasicAgg), e ∈ aggregate_basic results →
      e.2.sessions = 0 → e.2.bounceRate = 0 ∧ e.2.averageSessionDuration = 0) := by
  constructor
  · intro rows p hp hs
    obtain ⟨e, _, rfl⟩ := List.mem_map.1 hp
    have hsz : e.2.sessions = 0 := by rw [← finalizePage_sessions]; exact hs
    have hng : ¬ e.2.sessions > 0 := by rw [hsz]; exact lt_irrefl 0
    simp [finalizePage, hng]
  · intro results e he hs
    obtain ⟨e0, he0, rfl⟩ := List.mem_map.1 he
    have hs0 : e0.2.sessions = 0 := by rw [← finalizeBasic_sessions results e0.1]; exact hs
    have hng : ¬ e0.2.sessions > 0 := by rw [hs0]; exact lt_irrefl 0
    have hzero := aggregateBasicRaw_zero_fields results e0 he0
    rw [finalizeBasic, if_neg hng]
    exact hzero

/-- The record `get_page_performance` produces for the zero-session
group. -/
def zeroSessionRec : PageRecord := (aggregatePagesFinal [zeroSessionRow]).headD default

def basicZeroRow : BasicRow := ⟨"/b0", "mobile", 0, 1, 3/5, 12, 0⟩

/-- The entry `aggregate_basic` produces for the zero-session group. -/
def basicZeroEntry : String × BasicAgg := (aggregate_basic [basicZeroRow]).headD ("", default)

/-- Witness for the amended C1 at the two concrete zero-weight groups. -/
theorem c1_zero_weight_behavior_witness :
    zeroSessionRec.bounceRate = none ∧ basicZeroEntry.2.bounceRate = 0 :=
  ⟨(c1_zero_weight_behavior.1 [zeroSessionRow] zeroSessionRec (by decide) (by decide)).1,
   (c1_zero_weight_behavior.2 [basicZeroRow] basicZeroEntry (by decide) (by decide)).1⟩

/-! ### C4: finalized weighted metrics against the raw value range -/

/-- A session-weighted average with nonnegative weights and positive
total weight stays inside any interval containing all the values. -/
theorem weighted_avg_in_range (C : List PageRow) (f : PageRow → ℚ)
    (hw : ∀ r ∈ C, 0 ≤ r.sessions) (ht : 0 < (C.map (fun r => r.sessions)).sum)
    (lo hi : ℚ) (hb : ∀ r ∈ C, lo ≤ f r ∧ f r ≤ hi) :
    lo ≤ ((C.map (fun r => f r * r.sessions)).sum) / ((C.map (fun r => r.sessions)).sum) ∧
    ((C.map (fun r => f r * r.sessions)).sum) / ((C.map (fun r => r.sessions)).sum) ≤ hi := by
  have hupper : ((C.map (fun r => f r * r.sessions)).sum) ≤
      hi * ((C.map (fun r => r.sessions)).sum) := by
    rw [← List.sum_map_mul_left]
    exact List.sum_le_sum (fun r hr =>
      mul_le_mul_of_nonneg_right (hb r hr).2 (hw r hr))
  have hlower : lo * ((C.map (fun r => r.sessions)).sum) ≤
      ((C.map (fun r => f r * r.sessions)).sum) := by
    rw [← List.sum_map_mul_left]
    exact List.sum_le_sum (fun r hr =>
      mul_le_mul_of_nonneg_right (hb r hr).1 (hw r hr))
  exact ⟨(le_div_iff₀ ht).2 hlower, (div_le_iff₀ ht).2 hupper⟩

theorem finalizePage_pagePath (a : PageAgg) : (finalizePage a).pagePath = a.pagePath := rfl

/-- A row with weight 1 whose bounce rate 0.00004 rounds to 0 in the
finalized record, leaving the interval spanned by the raw values. -/
def tinyBounceRow : PageRow :=
  ⟨"/tiny", "mobile", "google", "organic", "Organic Search",
    1, 1, 1, 1/25000, 10, 1, 5, 2, 1/2, 3⟩

/-- C4 counterexample: for the single-row group of `tinyBounceRow`
(weight 1 > 0, raw `bounceRate` exactly 1/25000 = 0.00004, so the claim's
interval is the point [0.00004, 0.00004]), the returned `bounceRate` is
0 — strictly below the interval, because line 273 rounds to 4 decimal
places after the weighted average. -/
theorem c4_range_counterexample :
    tinyBounceRow.sessions = 1 ∧ tinyBounceRow.bounceRate = 1/25000 ∧
    (aggregatePagesFinal [tinyBounceRow]).map (fun p => p.bounceRate) = [some 0] ∧
    ¬ ((1 : ℚ)/25000 ≤ 0) := by decide

/-- C4 (amended): for every group with total weight > 0, each of the four
session-weighted metrics is returned, and its value lies within the
closed interval of the contributing rows' raw values *enlarged by half
the rounding step* (0.00005 for the 4-decimal rates, 0.005 for the
2-decimal quantities); equivalently the pre-rounding weighted average
lies within the exact interval.  (`avgEngagementDuration` is a derived
ratio of a summed duration, not a weighted average of a per-row metric,
and is outside this property.) -/
theorem c4_weighted_metrics_in_rounded_range (rows : List PageRow) (p : PageRecord)
    (hw : ∀ r ∈ rows, 0 ≤ r.sessions) (hp : p ∈ aggregatePagesFinal rows)
    (hs : 0 < p.sessions) (lo hi : ℚ) :
    ((∀ r ∈ rows, r.pagePath = p.pagePath → lo ≤ r.bounceRate ∧ r.bounceRate ≤ hi) →
      ∃ v, p.bounceRate = some v ∧ lo - 1/20000 ≤ v ∧ v ≤ hi + 1/20000) ∧
    ((∀ r ∈ rows, r.pagePath = p.pagePath →
        lo ≤ r.averageSessionDuration ∧ r.averageSessionDuration ≤ hi) →
      ∃ v, p.averageSessionDuration = some v ∧ lo - 1/200 ≤ v ∧ v ≤ hi + 1/200) ∧
    ((∀ r ∈ rows, r.pagePath = p.pagePath →
        lo ≤ r.screenPageViewsPerSession ∧ r.screenPageViewsPerSession ≤ hi) →
      ∃ v, p.pagesPerSession = some v ∧ lo - 1/200 ≤ v ∧ v ≤ hi + 1/200) ∧
    ((∀ r ∈ rows, r.pagePath = p.pagePath → lo ≤ r.engagementRate ∧ r.engagementRate ≤ hi) →
      ∃ v, p.engagementRate = some v ∧ lo - 1/20000 ≤ v ∧ v ≤ hi + 1/20000) := by
  obtain ⟨e, he, rfl⟩ := List.mem_map.1 hp
  obtain ⟨hne, hfold⟩ := aggregatePages_entry rows e he
  have hppath : (finalizePage e.2).pagePath = e.1 := by
    rw [finalizePage_pagePath, hfold, foldl_addRow_pagePath]
    rfl
  have hmemC : ∀ r ∈ filterPath rows e.1, r ∈ rows ∧ r.pagePath = e.1 := by
    intro r hr
    have h1 := List.mem_filter.1 hr
    exact ⟨h1.1, by simpa using h1.2⟩
  have hwC : ∀ r ∈ filterPath rows e.1, 0 ≤ r.sessions :=
    fun r hr => hw r (hmemC r hr).1
  have hsess : e.2.sessions = ((filterPath rows e.1).map (fun r => r.sessions)).sum := by
    rw [hfold, foldl_addRow_field (fun a => a.sessions) (fun r => r.sessions) (fun _ _ => rfl)]
    simp [emptyAgg]
  have hspos : 0 < e.2.sessions := by rw [← finalizePage_sessions]; exact hs
  have htC : 0 < ((filterPath rows e.1).map (fun r => r.sessions)).sum := hsess ▸ hspos
  refine ⟨?_, ?_, ?_, ?_⟩
  · intro hb
    have hbC : ∀ r ∈ filterPath rows e.1, lo ≤ r.bounceRate ∧ r.bounceRate ≤ hi :=
      fun r hr => hb r (hmemC r hr).1 ((hmemC r hr).2.trans hppath.symm)
    have hacc : e.2.wBounce =
        ((filterPath rows e.1).map (fun r => r.bounceRate * r.sessions)).sum := by
      rw [hfold, foldl_addRow_field (fun a => a.wBounce)
        (fun r => r.bounceRate * r.sessions) (fun _ _ => rfl)]
      simp [emptyAgg]
    have hq := weighted_avg_in_range (filterPath rows e.1) (fun r => r.bounceRate)
      hwC htC lo hi hbC
    refine ⟨roundTo 4 (e.2.wBounce / e.2.sessions), ?_, ?_, ?_⟩
    · show (finalizePage e.2).bounceRate = _
      rw [finalizePage]
      simp [hspos]
    · have h1 := le_roundTo 4 (e.2.wBounce / e.2.sessions)
      have h2 : lo ≤ e.2.wBounce / e.2.sessions := by rw [hacc, hsess]; exact hq.1
      have h3 : (1 : ℚ) / (2 * (10 : ℚ) ^ (4 : ℕ)) = 1/20000 := by norm_num
      linarith [h3 ▸ h1]
    · have h1 := roundTo_le 4 (e.2.wBounce / e.2.sessions)
      have h2 : e.2.wBounce / e.2.sessions ≤ hi := by rw [hacc, hsess]; exact hq.2
      have h3 : (1 : ℚ) / (2 * (10 : ℚ) ^ (4 : ℕ)) = 1/20000 := by norm_num
      linarith [h3 ▸ h1]
  · intro hb
    have hbC : ∀ r ∈ filterPath rows e.1,
        lo ≤ r.averageSessionDuration ∧ r.averageSessionDuration ≤ hi :=
      fun r hr => hb r (hmemC r hr).1 ((hmemC r hr).2.trans hppath.symm)
    have hacc : e.2.wDuration =
        ((filterPath rows e.1).map (fun r => r.averageSessionDuration * r.sessions)).sum := by
      rw [hfold, foldl_addRow_field (fun a => a.wDuration)
        (fun r => r.averageSessionDuration * r.sessions) (fun _ _ => rfl)]
      simp [emptyAgg]
    have hq := weighted_avg_in_range (filterPath rows e.1) (fun r => r.averageSessionDuration)
      hwC htC lo hi hbC
    refine ⟨roundTo 2 (e.2.wDuration / e.2.sessions), ?_, ?_, ?_⟩
    · show (finalizePage e.2).averageSessionDuration = _
      rw [finalizePage]
      simp [hspos]
    · have h1 := le_roundTo 2 (e.2.wDuration / e.2.sessions)
      have h2 : lo ≤ e.2.wDuration / e.2.sessions := by rw [hacc, hsess]; exact hq.1
      have h3 : (1 : ℚ) / (2 * (10 : ℚ) ^ (2 : ℕ)) = 1/200 := by norm_num
      linarith [h3 ▸ h1]
    · have h1 := roundTo_le 2 (e.2.wDuration / e.2.sessions)
      have h2 : e.2.wDuration / e.2.sessions ≤ hi := by rw [hacc, hsess]; exact hq.2
      have h3 : (1 : ℚ) / (2 * (10 : ℚ) ^ (2 : ℕ)) = 1/200 := by norm_num
      linarith [h3 ▸ h1]
  · intro hb
    have hbC : ∀ r ∈ filterPath rows e.1,
        lo ≤ r.screenPageViewsPerSession ∧ r.screenPageViewsPerSession ≤ hi :=
      fun r hr => hb r (hmemC r hr).1 ((hmemC r hr).2.trans hppath.symm)
    have hacc : e.2.wPps =
        ((filterPath rows e.1).map (fun r => r.screenPageViewsPerSession * r.sessions)).sum := by
      rw [hfold, foldl_addRow_field (fun a => a.wPps)
        (fun r => r.screenPageViewsPerSession * r.sessions) (fun _ _ => rfl)]
      simp [emptyAgg]
    have hq := weighted_avg_in_range (filterPath rows e.1)
      (fun r => r.screenPageViewsPerSession) hwC htC lo hi hbC
    refine ⟨roundTo 2 (e.2.wPps / e.2.sessions), ?_, ?_, ?_⟩
    · show (finalizePage e.2).pagesPerSession = _
      rw [finalizePage]
      simp [hspos]
    · have h1 := le_roundTo 2 (e.2.wPps / e.2.sessions)
      have h2 : lo ≤ e.2.wPps / e.2.sessions := by rw [hacc, hsess]; exact hq.1
      have h3 : (1 : ℚ) / (2 * (10 : ℚ) ^ (2 : ℕ)) = 1/200 := by norm_num
      linarith [h3 ▸ h1]
    · have h1 := roundTo_le 2 (e.2.wPps / e.2.sessions)
      have h2 : e.2.wPps / e.2.sessions ≤ hi := by rw [hacc, hsess]; exact hq.2
      have h3 : (1 : ℚ) / (2 * (10 : ℚ) ^ (2 : ℕ)) = 1/200 := by norm_num
      linarith [h3 ▸ h1]
  · intro hb
    have hbC : ∀ r ∈ filterPath rows e.1, lo ≤ r.engagementRate ∧ r.engagementRate ≤ hi :=
      fun r hr => hb r (hmemC r hr).1 ((hmemC r hr).2.trans hppath.symm)
    have hacc : e.2.wEngRate =
        ((filterPath rows e.1).map (fun r => r.engagementRate * r.sessions)).sum := by
      rw [hfold, foldl_addRow_field (fun a => a.wEngRate)
        (fun r => r.engagementRate * r.sessions) (fun _ _ => rfl)]
      simp [emptyAgg]
    have hq := weighted_avg_in_range (filterPath rows e.1) (fun r => r.engagementRate)
      hwC htC lo hi hbC
    refine ⟨roundTo 4 (e.2.wEngRate / e.2.sessions), ?_, ?_, ?_⟩
    · show (finalizePage e.2).engagementRate = _
      rw [finalizePage]
      simp [hspos]
    · have h1 := le_roundTo 4 (e.2.wEngRate / e.2.sessions)
      have h2 : lo ≤ e.2.wEngRate / e.2.sessions := by rw [hacc, hsess]; exact hq.1
      have h3 : (1 : ℚ) / (2 * (10 : ℚ) ^ (4 : ℕ)) = 1/20000 := by norm_num
      linarith [h3 ▸ h1]
    · have h1 := roundTo_le 4 (e.2.wEngRate / e.2.sessions)
      have h2 : e.2.wEngRate / e.2.sessions ≤ hi := by rw [hacc, hsess]; exact hq.2
      have h3 : (1 : ℚ) / (2 * (10 : ℚ) ^ (4 : ℕ)) = 1/20000 := by norm_num
      linarith [h3 ▸ h1]

def rangeRowA : PageRow :=
  ⟨"/w", "mobile", "google", "organic", "Organic Search", 1, 1, 1, 2/5, 8, 1, 4, 2, 1/2, 3⟩

def rangeRowB : PageRow :=
  ⟨"/w", "desktop", "google", "organic", "Organic Search", 1, 1, 0, 3/5, 12, 1, 6, 3, 3/5, 5⟩

def rangeRec : PageRecord := (aggregatePagesFinal [rangeRowA, rangeRowB]).headD default

/-- Witness for the amended C4: the two-row group with bounce rates 0.4
and 0.6 finalizes inside [0.4 - 0.00005, 0.6 + 0.00005]. -/
theorem c4_weighted_metrics_in_rounded_range_witness :
    ∃ v, rangeRec.bounceRate = some v ∧
      (2 : ℚ)/5 - 1/20000 ≤ v ∧ v ≤ (3 : ℚ)/5 + 1/20000 :=
  (c4_weighted_metrics_in_rounded_range [rangeRowA, rangeRowB] rangeRec
    (by decide) (by decide) (by decide) (2/5) (3/5)).1 (by decide)

/-! ### C6: order- and batch-insensitivity of the grouped aggregator -/

theorem pageAggAt_char (rows : List PageRow) (p : String) :
    alGet? (aggregatePages rows) p =
      match filterPath rows p with
      | [] => none
      | l => some (l.foldl addRow (emptyAgg p)) := by
  rw [aggregatePages, foldl_stepPage_alGet?]
  show groupFold p none (filterPath rows p) = _
  cases filterPath rows p <;> rfl

theorem finalAt_of_ne_nil (rows : List PageRow) (p : String) (h : filterPath rows p ≠ []) :
    finalAt rows p =
      some (finalizePage ((filterPath rows p).foldl addRow (emptyAgg p))) := by
  rw [finalAt, pageAggAt_char]
  cases hl : filterPath rows p with
  | nil => exact absurd hl h
  | cons x xs => rfl

theorem finalAt_of_nil (rows : List PageRow) (p : String) (h : filterPath rows p = []) :
    finalAt rows p = none := by
  rw [finalAt, pageAggAt_char, h]
  rfl

/-- The five finalized weighted metrics only depend on the additive
components of the aggregate record. -/
theorem finalizePage_eq_components (a b : PageAgg)
    (h1 : a.sessions = b.sessions) (h2 : a.wBounce = b.wBounce)
    (h3 : a.wDuration = b.wDuration) (h4 : a.wPps = b.wPps)
    (h5 : a.wEngRate = b.wEngRate)
    (h6 : a.userEngagementDuration = b.userEngagementDuration) :
    (finalizePage a).bounceRate = (finalizePage b).bounceRate ∧
    (finalizePage a).averageSessionDuration = (finalizePage b).averageSessionDuration ∧
    (finalizePage a).pagesPerSession = (finalizePage b).pagesPerSession ∧
    (finalizePage a).engagementRate = (finalizePage b).engagementRate ∧
    (finalizePage a).avgEngagementDuration = (finalizePage b).avgEngagementDuration := by
  simp [finalizePage, h1, h2, h3, h4, h5, h6]

/-- C6: grouped aggregation is order- and batch-insensitive.  For every
group and breakdown key, a permutation of the row list leaves every
summable total, every weighted accumulator, every breakdown tally and
every finalized weighted metric unchanged (exactly — hence within any
rounding tolerance), and aggregating a concatenation gives, per group,
the sum of the two batches' totals and tallies. -/
theorem c6_aggregation_insensitive (rows rowsP l1 l2 : List PageRow)
    (hperm : rowsP.Perm rows) (hsplit : rows = l1 ++ l2) (p d : String) :
    (sessionsAt rowsP p = sessionsAt rows p ∧
     totalUsersAt rowsP p = totalUsersAt rows p ∧
     newUsersAt rowsP p = newUsersAt rows p ∧
     engagedSessionsAt rowsP p = engagedSessionsAt rows p ∧
     eventCountAt rowsP p = eventCountAt rows p ∧
     engagementDurationAt rowsP p = engagementDurationAt rows p ∧
     wBounceAt rowsP p = wBounceAt rows p ∧
     wDurationAt rowsP p = wDurationAt rows p ∧
     wPpsAt rowsP p = wPpsAt rows p ∧
     wEngRateAt rowsP p = wEngRateAt rows p) ∧
    (deviceTallyAt rowsP p d = deviceTallyAt rows p d ∧
     sourceTallyAt rowsP p d = sourceTallyAt rows p d ∧
     channelTallyAt rowsP p d = channelTallyAt rows p d) ∧
    ((finalAt rowsP p).map (fun q => q.bounceRate) =
        (finalAt rows p).map (fun q => q.bounceRate) ∧
     (finalAt rowsP p).map (fun q => q.averageSessionDuration) =
        (finalAt rows p).map (fun q => q.averageSessionDuration) ∧
     (finalAt rowsP p).map (fun q => q.pagesPerSession) =
        (finalAt rows p).map (fun q => q.pagesPerSession) ∧
     (finalAt rowsP p).map (fun q => q.engagementRate) =
        (finalAt rows p).map (fun q => q.engagementRate) ∧
     (finalAt rowsP p).map (fun q => q.avgEngagementDuration) =
        (finalAt rows p).map (fun q => q.avgEngagementDuration)) ∧
    (sessionsAt rows p = sessionsAt l1 p + sessionsAt l2 p ∧
     totalUsersAt rows p = totalUsersAt l1 p + totalUsersAt l2 p ∧
     newUsersAt rows p = newUsersAt l1 p + newUsersAt l2 p ∧
     engagedSessionsAt rows p = engagedSessionsAt l1 p + engagedSessionsAt l2 p ∧
     eventCountAt rows p = eventCountAt l1 p + eventCountAt l2 p ∧
     engagementDurationAt rows p = engagementDurationAt l1 p + engagementDurationAt l2 p ∧
     wBounceAt rows p = wBounceAt l1 p + wBounceAt l2 p ∧
     wDurationAt rows p = wDurationAt l1 p + wDurationAt l2 p ∧
     wPpsAt rows p = wPpsAt l1 p + wPpsAt l2 p ∧
     wEngRateAt rows p = wEngRateAt l1 p + wEngRateAt l2 p ∧
     deviceTallyAt rows p d = deviceTallyAt l1 p d + deviceTallyAt l2 p d ∧
     sourceTallyAt rows p d = sourceTallyAt l1 p d + sourceTallyAt l2 p d ∧
     channelTallyAt rows p d = channelTallyAt l1 p d + channelTallyAt l2 p d) := by
  subst hsplit
  have hfp : (filterPath rowsP p).Perm (filterPath (l1 ++ l2) p) := hperm.filter _
  have hsum : ∀ g : PageRow → ℚ,
      ((filterPath rowsP p).map g).sum = ((filterPath (l1 ++ l2) p).map g).sum :=
    fun g => (hfp.map g).sum_eq
  have happ : ∀ g : PageRow → ℚ,
      ((filterPath (l1 ++ l2) p).map g).sum =
        ((filterPath l1 p).map g).sum + ((filterPath l2 p).map g).sum := by
    intro g
    rw [filterPath, List.filter_append, List.map_append, List.sum_append]
    rfl
  refine ⟨?_, ?_, ?_, ?_⟩
  · exact ⟨by rw [sessionsAt_eq, sessionsAt_eq]; exact hsum _,
      by rw [totalUsersAt_eq, totalUsersAt_eq]; exact hsum _,
      by rw [newUsersAt_eq, newUsersAt_eq]; exact hsum _,
      by rw [engagedSessionsAt_eq, engagedSessionsAt_eq]; exact hsum _,
      by rw [eventCountAt_eq, eventCountAt_eq]; exact hsum _,
      by rw [engagementDurationAt_eq, engagementDurationAt_eq]; exact hsum _,
      by rw [wBounceAt_eq, wBounceAt_eq]; exact hsum _,
      by rw [wDurationAt_eq, wDurationAt_eq]; exact hsum _,
      by rw [wPpsAt_eq, wPpsAt_eq]; exact hsum _,
      by rw [wEngRateAt_eq, wEngRateAt_eq]; exact hsum _⟩
  · exact ⟨by rw [deviceTallyAt_eq, deviceTallyAt_eq]; exact hsum _,
      by rw [sourceTallyAt_eq, sourceTallyAt_eq]; exact hsum _,
      by rw [channelTallyAt_eq, channelTallyAt_eq]; exact hsum _⟩
  · cases hB : filterPath (l1 ++ l2) p with
    | nil =>
      have hA : filterPath rowsP p = [] := (hB ▸ hfp).eq_nil
      rw [finalAt_of_nil _ _ hA, finalAt_of_nil _ _ hB]
      exact ⟨rfl, rfl, rfl, rfl, rfl⟩
    | cons x xs =>
      have hA : filterPath rowsP p ≠ [] := by
        intro h
        have := (h ▸ hfp).symm.eq_nil
        rw [hB] at this
        cases this
      rw [finalAt_of_ne_nil _ _ hA, finalAt_of_ne_nil _ _ (by rw [hB]; simp)]
      have hcomp : ∀ (f : PageAgg → ℚ) (g : PageRow → ℚ),
          (∀ a r, f (addRow a r) = f a + g r) → f (emptyAgg p) = 0 →
          f ((filterPath rowsP p).foldl addRow (emptyAgg p)) =
            f ((filterPath (l1 ++ l2) p).foldl addRow (emptyAgg p)) := by
        intro f g hfg hf0
        rw [foldl_addRow_field f g hfg, foldl_addRow_field f g hfg, hf0, hsum g]
      have hc := finalizePage_eq_components
        ((filterPath rowsP p).foldl addRow (emptyAgg p))
        ((filterPath (l1 ++ l2) p).foldl addRow (emptyAgg p))
        (hcomp _ _ (fun _ _ => rfl) rfl) (hcomp _ _ (fun _ _ => rfl) rfl)
        (hcomp _ _ (fun _ _ => rfl) rfl) (hcomp _ _ (fun _ _ => rfl) rfl)
        (hcomp _ _ (fun _ _ => rfl) rfl) (hcomp _ _ (fun _ _ => rfl) rfl)
      simp only [Option.map_some']
      exact ⟨congrArg some hc.1, congrArg some hc.2.1, congrArg some hc.2.2.1,
        congrArg some hc.2.2.2.1, congrArg some hc.2.2.2.2⟩
  · exact ⟨by rw [sessionsAt_eq, sessionsAt_eq, sessionsAt_eq]; exact happ _,
      by rw [totalUsersAt_eq, totalUsersAt_eq, totalUsersAt_eq]; exact happ _,
      by rw [newUsersAt_eq, newUsersAt_eq, newUsersAt_eq]; exact happ _,
      by rw [engagedSessionsAt_eq, engagedSessionsAt_eq, engagedSessionsAt_eq]; exact happ _,
      by rw [eventCountAt_eq, eventCountAt_eq, eventCountAt_eq]; exact happ _,
      by rw [engagementDurationAt_eq, engagementDurationAt_eq, engagementDurationAt_eq]; exact happ _,
      by rw [wBounceAt_eq, wBounceAt_eq, wBounceAt_eq]; exact happ _,
      by rw [wDurationAt_eq, wDurationAt_eq, wDurationAt_eq]; exact happ _,
      by rw [wPpsAt_eq, wPpsAt_eq, wPpsAt_eq]; exact happ _,
      by rw [wEngRateAt_eq, wEngRateAt_eq, wEngRateAt_eq]; exact happ _,
      by rw [deviceTallyAt_eq, deviceTallyAt_eq, deviceTallyAt_eq]; exact happ _,
      by rw [sourceTallyAt_eq, sourceTallyAt_eq, sourceTallyAt_eq]; exact happ _,
      by rw [channelTallyAt_eq, channelTallyAt_eq, channelTallyAt_eq]; exact happ _⟩

def permRowA : PageRow :=
  ⟨"/x", "mobile", "google", "organic", "Organic Search", 2, 3, 1, 1/2, 8, 1, 4, 2, 1/2, 3⟩

def permRowB : PageRow :=
  ⟨"/x", "desktop", "bing", "referral", "Referral", 3, 2, 1, 1/4, 6, 2, 5, 1, 3/4, 2⟩

/-- Witness for C6: a two-row group aggregated in either order, and in
two one-row batches. -/
theorem c6_aggregation_insensitive_witness :
    sessionsAt [permRowB, permRowA] "/x" = sessionsAt [permRowA, permRowB] "/x" ∧
    (finalAt [permRowB, permRowA] "/x").map (fun q => q.bounceRate) =
      (finalAt [permRowA, permRowB] "/x").map (fun q => q.bounceRate) ∧
    sessionsAt [permRowA, permRowB] "/x" =
      sessionsAt [permRowA] "/x" + sessionsAt [permRowB] "/x" := by
  have h := c6_aggregation_insensitive [permRowA, permRowB] [permRowB, permRowA]
    [permRowA] [permRowB] (List.Perm.swap permRowA permRowB []) rfl "/x" "mobile"
  exact ⟨h.1.1, h.2.2.1.1, h.2.2.2.1⟩

/-! ### C3: rendering of unavailable week-over-week changes -/

def c3period : PeriodTotals := ⟨"Last 7 days", "", "", []⟩

/-- The current-period record of page `/a`. -/
def c3page : SPage := ⟨"/a", 5, 4, 3, 7, 1/2, 1/2, 10, some 1, some 2, some 1, [], [], []⟩

/-- The previous-period record of page `/a`, with zero sessions: its
week-over-week percentage change is "not available". -/
def c3prev : SPage := ⟨"/a", 0, 1, 1, 2, 1/2, 1/4, 5, none, none, none, [], [], []⟩

def c3data : CombinedResult :=
  ⟨c3period, c3period, c3period, [c3page], [c3prev], [], [], [], [], [], []⟩

/-- C3: the serialized summary for a page whose previous-period sessions
are 0 (percentage change unavailable) renders the week-over-week change
as the literal `+0.0%`, not `N/A` — line 552 substitutes 0 for the
unavailable percentage, while the site-level path (line 496, embedded as
`pctRender`) correctly renders `N/A`. -/
theorem c3_week_over_week_zero_render :
    c3prev.sessions = 0 ∧
    "    vs previous 7 days: sessions +5 (+0.0%), bounce +0.0%" ∈ buildSummaryLines c3data ∧
    pctRender none = "N/A" := by decide

end GA4
